import Mathlib

/-
Verification development for a restaurant/review data-access layer backed by a
single key-value store (routes in src/routes/restaurents.ts, key mapping in
src/utils/keys.ts).  The store state is embedded shallowly: each physical
structure of the store becomes a field of `Store`, and each route handler
becomes a pure state transformer returning the new store together with an
outcome.  Sets are modelled as lists up to membership; the score-ranked
ordered set is an association list whose read path sorts by score.
-/

/-- Body of a validated review submission (rating and text), as accepted by the
review schema. -/
structure ReviewInput where
  rating : Int
  body : String
deriving Repr, DecidableEq

/-- One restaurant hash record: scalar attributes and counters.  The field
totalReviews is the rating-sum accumulator (hIncrBy target), not a count. -/
structure RestRecord where
  name : String
  location : String
  viewCount : Nat
  averageRating : ℚ
  totalReviews : Int
deriving Repr, DecidableEq

/-- One review hash record, keyed by review id, with the back-reference to the
restaurant it belongs to. -/
structure ReviewRecord where
  id : String
  rating : Int
  body : String
  timestamp : Int
  restaurantId : String
deriving Repr, DecidableEq

/-- Outcome of the create-restaurant handler: ok, or the duplicate-signature
rejection (rendered by the HTTP layer as the Conflict error response). -/
inductive CreateOutcome where
  | ok
  | conflict
deriving Repr, DecidableEq

/-- Outcome of the add-review handler.  restaurantNotFound is produced by the
checkRestaurantExists middleware guarding the route. -/
inductive AddOutcome where
  | ok
  | restaurantNotFound
deriving Repr, DecidableEq

/-- Outcome of the delete-review handler: restaurantNotFound from the
middleware, reviewNotFound from the exists probe, integrityMismatch when the
stored back-reference differs from the path restaurant id. -/
inductive DeleteOutcome where
  | ok
  | restaurantNotFound
  | reviewNotFound
  | integrityMismatch
deriving Repr, DecidableEq

/-- The shared store: one field per physical structure named in the key
namespace (src/utils/keys.ts).  restaurants maps id to hash record;
reviewList is the per-restaurant ordered review-id list (lPush prepends);
reviewDetails maps review id to its record; cuisines is the global tag set;
cuisineMembers maps a tag to the ids in its restaurant set; restaurantCuisines
maps an id to its own tag set; ranking is the score-ranked ordered set
(member, score); bloom is the set of signatures the duplicate detector has
recorded (its exists probe answers membership). -/
structure Store where
  restaurants : String → Option RestRecord
  reviewList : String → List String
  reviewDetails : String → Option ReviewRecord
  cuisines : List String
  cuisineMembers : String → List String
  restaurantCuisines : String → List String
  ranking : List (String × ℚ)
  bloom : List String

/-- The empty store: no records, no lists, no ranking entries, empty filter. -/
def emptyStore : Store where
  restaurants := fun _ => none
  reviewList := fun _ => []
  reviewDetails := fun _ => none
  cuisines := []
  cuisineMembers := fun _ => []
  restaurantCuisines := fun _ => []
  ranking := []
  bloom := []

/-- Duplicate-detector signature of a submission: the name|location composite
string checked and recorded against the filter. -/
def signature (name location : String) : String := name ++ "|" ++ location

/-- zAdd on the ordered set: update the score of an existing member, else
append the new (member, score) pair. -/
def zAdd : List (String × ℚ) → String → ℚ → List (String × ℚ)
  | [], m, v => [(m, v)]
  | e :: t, m, v => if e.1 = m then (m, v) :: t else e :: zAdd t m v

/-- Score lookup in the ordered set: the score stored for a member, if any. -/
def zScore : List (String × ℚ) → String → Option ℚ
  | [], _ => none
  | e :: t, m => if e.1 = m then some e.2 else zScore t m

/-- Rounding to one decimal, the pure-number meaning of toFixed(1) used by the
average computation: round half away from zero on the non-negative values that
arise here. -/
def round1 (q : ℚ) : ℚ := (round (q * 10) : ℚ) / 10

/-- Length of the review-id list as read back from the lPush on the add-review
path: the just-pushed id is already counted. -/
def reviewCountAfterPush (s : Store) (rid revId : String) : Nat :=
  (revId :: s.reviewList rid).length

/-- POST / — create a restaurant.  The duplicate detector is probed first on
the name|location signature; a hit rejects the submission before any write.
Otherwise one fan-out writes the hash record (zero counters), the three
cuisine-index sides per tag, the zero-score ranking entry, and records the
signature in the filter. -/
def createRestaurant (s : Store) (name location : String) (tags : List String)
    (id : String) : Store × CreateOutcome :=
  if signature name location ∈ s.bloom then (s, CreateOutcome.conflict)
  else
    ({ s with
        restaurants := fun k =>
          if k = id then
            some { name := name, location := location, viewCount := 0,
                   averageRating := 0, totalReviews := 0 }
          else s.restaurants k
        cuisines := tags ++ s.cuisines
        cuisineMembers := fun t =>
          if t ∈ tags then id :: s.cuisineMembers t else s.cuisineMembers t
        restaurantCuisines := fun k =>
          if k = id then tags ++ s.restaurantCuisines k else s.restaurantCuisines k
        ranking := zAdd s.ranking id 0
        bloom := signature name location :: s.bloom },
     CreateOutcome.ok)

/-- Average computed on the add-review path: the new rating sum divided by the
review-list length read back from the push, rounded to one decimal. -/
def newAverage (s : Store) (rid revId : String) (r : RestRecord) (d : ReviewInput) : ℚ :=
  round1 (((r.totalReviews + d.rating : Int) : ℚ) / (reviewCountAfterPush s rid revId : ℚ))

/-- POST /:restaurantId/reviews — add a review.  Guarded by the
existence middleware; then one batch prepends the review id to the list,
stores the review record with its restaurantId back-reference, and adds the
rating to the sum accumulator; the new average is the new sum divided by the
list length read back from the push, rounded to one decimal, and a second
batch writes it to the record and upserts the ranking score. -/
def addReview (s : Store) (rid revId : String) (d : ReviewInput) (ts : Int) :
    Store × AddOutcome :=
  match s.restaurants rid with
  | none => (s, AddOutcome.restaurantNotFound)
  | some r =>
    let totalRating : Int := r.totalReviews + d.rating
    let newAvg : ℚ := newAverage s rid revId r d
    ({ s with
        reviewList := fun k => if k = rid then revId :: s.reviewList rid else s.reviewList k
        reviewDetails := fun k =>
          if k = revId then
            some { id := revId, rating := d.rating, body := d.body,
                   timestamp := ts, restaurantId := rid }
          else s.reviewDetails k
        restaurants := fun k =>
          if k = rid then some { r with totalReviews := totalRating, averageRating := newAvg }
          else s.restaurants k
        ranking := zAdd s.ranking rid newAvg },
     AddOutcome.ok)

/-- DELETE /:restaurantId/reviews/:reviewId — delete a review.  Guarded by the
existence middleware; then the review record is probed (absent signals
Not-Found), its stored restaurantId back-reference is compared with the path
id (mismatch signals the integrity error), and on success lRem removes one
occurrence of the id from the list and the record is deleted.  Nothing else is
touched: the sum accumulator, averageRating and ranking score stay as they
were. -/
def deleteReview (s : Store) (rid revId : String) : Store × DeleteOutcome :=
  match s.restaurants rid with
  | none => (s, DeleteOutcome.restaurantNotFound)
  | some _ =>
    match s.reviewDetails revId with
    | none => (s, DeleteOutcome.reviewNotFound)
    | some rec =>
      if rec.restaurantId = rid then
        ({ s with
            reviewList := fun k =>
              if k = rid then (s.reviewList rid).erase revId else s.reviewList k
            reviewDetails := fun k => if k = revId then none else s.reviewDetails k },
         DeleteOutcome.ok)
      else (s, DeleteOutcome.integrityMismatch)

/-- GET /:restaurantId — the view-count side effect: atomic increment of the
viewCount field of an existing restaurant. -/
def incrementView (s : Store) (rid : String) : Store :=
  match s.restaurants rid with
  | none => s
  | some r =>
    { s with
        restaurants := fun k =>
          if k = rid then some { r with viewCount := r.viewCount + 1 }
          else s.restaurants k }

/-- GET /:restaurantId/reviews — one page of reviews.  The ids in the
window [start, start+limit) of the ordered list are each resolved through
hGetAll of the review-details hash.  hGetAll of an absent key resolves to an
empty hash (it does not throw), so the catch branch of the code never fires
for a deleted record and the filter removes nothing: an id whose record is
absent is modelled as a none entry on the page (the code returns an object
whose rating and timestamp are NaN), still included in the result. -/
def listReviews (s : Store) (rid : String) (page limit : Nat) :
    List (Option ReviewRecord) :=
  (((s.reviewList rid).drop ((page - 1) * limit)).take limit).map
    (fun id => s.reviewDetails id)

/-- Read ordering of the ranking structure under REV: higher score first, ties
by reverse lexicographic member order (the reverse of the ascending
score-then-member order of the underlying ordered set). -/
def ratingRel (a b : String × ℚ) : Prop :=
  b.2 < a.2 ∨ (a.2 = b.2 ∧ b.1 ≤ a.1)

instance : DecidableRel ratingRel := fun a b =>
  inferInstanceAs (Decidable (b.2 < a.2 ∨ (a.2 = b.2 ∧ b.1 ≤ a.1)))

instance : IsTotal (String × ℚ) ratingRel where
  total a b := by
    rcases lt_trichotomy a.2 b.2 with h | h | h
    · exact Or.inr (Or.inl h)
    · rcases le_total a.1 b.1 with hs | hs
      · exact Or.inr (Or.inr ⟨h.symm, hs⟩)
      · exact Or.inl (Or.inr ⟨h, hs⟩)
    · exact Or.inl (Or.inl h)

instance : IsTrans (String × ℚ) ratingRel where
  trans a b c hab hbc := by
    rcases hab with h1 | ⟨h1, h1s⟩ <;> rcases hbc with h2 | ⟨h2, h2s⟩
    · exact Or.inl (h2.trans h1)
    · exact Or.inl (h2 ▸ h1)
    · exact Or.inl (h1 ▸ h2)
    · exact Or.inr ⟨h1.trans h2, h2s.trans h1s⟩

/-- zRange of the ranking structure with REV: the entries sorted descending by
score, then windowed to [start, start+limit). -/
def topByRating (s : Store) (start limit : Nat) : List (String × ℚ) :=
  ((List.insertionSort ratingRel s.ranking).drop start).take limit

/-- Pagination block of the list-all response, echoing page and limit and
reporting total. -/
structure Pagination where
  page : Nat
  limit : Nat
  total : Nat
deriving Repr, DecidableEq

/-- GET / — the paginated list of all restaurants, highest rated first.  Each
id of the ranking window is resolved to its hash record and cuisine set
(hGetAll of an absent record resolves to an empty hash, modelled none, and is
still an entry); total is the length of the returned page. -/
def listAll (s : Store) (page limit : Nat) :
    List (Option RestRecord × List String) × Pagination :=
  let ids := (topByRating s ((page - 1) * limit) limit).map (fun e => e.1)
  let entries := ids.map (fun id => (s.restaurants id, s.restaurantCuisines id))
  (entries, { page := page, limit := limit, total := entries.length })

/-- The averageRating a reader observes for a restaurant: the stored field, 0
when the record is absent (the read path coerces a missing field to 0). -/
def avgOf (s : Store) (rid : String) : ℚ :=
  ((s.restaurants rid).map (fun r => r.averageRating)).getD 0

/-- The restaurantId back-reference stored in a review record, if the record
exists. -/
def backrefOf (s : Store) (revId : String) : Option String :=
  (s.reviewDetails revId).map (fun r => r.restaurantId)

/-- The mutating operations of the API, for invariant preservation: create a
restaurant, add a review, delete a review, increment a view counter. -/
inductive Op where
  | create (name location : String) (tags : List String) (id : String)
  | review (rid revId : String) (d : ReviewInput) (ts : Int)
  | removeReview (rid revId : String)
  | view (rid : String)

/-- Apply one operation to the store, keeping the resulting state. -/
def applyOp (s : Store) : Op → Store
  | Op.create name location tags id => (createRestaurant s name location tags id).1
  | Op.review rid revId d ts => (addReview s rid revId d ts).1
  | Op.removeReview rid revId => (deleteReview s rid revId).1
  | Op.view rid => incrementView s rid

/-- A sequence of review submissions to one restaurant: fold addReview over
the (review id, input) pairs in order. -/
def applyReviews (s : Store) (rid : String) (L : List (String × ReviewInput)) : Store :=
  L.foldl (fun st p => (addReview st rid p.1 p.2 0).1) s

/-- Bidirectional cuisine-index symmetry: a tag is in the tag set of a
restaurant exactly when the restaurant id is in the restaurant set of the
tag. -/
def CuisineSym (s : Store) : Prop :=
  ∀ rid tag, tag ∈ s.restaurantCuisines rid ↔ rid ∈ s.cuisineMembers tag

/-- A freshly created restaurant record: zero counters, zero average. -/
def freshRec : RestRecord :=
  { name := "Pizza Palace", location := "NY", viewCount := 0,
    averageRating := 0, totalReviews := 0 }

/-- A store with one freshly created restaurant r1 and its zero-score ranking
entry. -/
def freshStore : Store :=
  { emptyStore with
      restaurants := fun k => if k = "r1" then some freshRec else none
      ranking := [("r1", 0)] }

/-- The two-review submission of the spec scenario: rating 5 then rating 3. -/
def demoReviews : List (String × ReviewInput) :=
  [("v1", { rating := 5, body := "great" }), ("v2", { rating := 3, body := "ok" })]

/-- A store whose duplicate detector has already recorded the signature of the
Pizza Palace submission. -/
def dupStore : Store :=
  { emptyStore with bloom := [signature "Pizza Palace" "NY"] }

/-- A review record for review v1 belonging to restaurant r1. -/
def recV1 : ReviewRecord :=
  { id := "v1", rating := 5, body := "great", timestamp := 0, restaurantId := "r1" }

/-- A store where restaurant r1 exists and holds review v1 in its list. -/
def delStore : Store :=
  { freshStore with
      reviewList := fun k => if k = "r1" then ["v1"] else []
      reviewDetails := fun k => if k = "v1" then some recV1 else none }

/-- A review record whose back-reference points at restaurant r2, not r1. -/
def recV2 : ReviewRecord :=
  { id := "v2", rating := 4, body := "meh", timestamp := 0, restaurantId := "r2" }

/-- A store where restaurant r1 exists but review v2 belongs to r2: deleting
v2 through the r1 path must hit the integrity check. -/
def mmStore : Store :=
  { freshStore with reviewDetails := fun k => if k = "v2" then some recV2 else none }

/-- Restaurant record with average rating 4. -/
def recA : RestRecord :=
  { name := "A", location := "X", viewCount := 0, averageRating := 4, totalReviews := 8 }

/-- Restaurant record with average rating 2. -/
def recB : RestRecord :=
  { name := "B", location := "Y", viewCount := 0, averageRating := 2, totalReviews := 2 }

/-- A store with two rated restaurants, the ranking entries deliberately not in
score order. -/
def demoStore : Store :=
  { emptyStore with
      restaurants := fun k =>
        if k = "a" then some recA else if k = "b" then some recB else none
      ranking := [("b", 2), ("a", 4)] }

/-- A store whose restaurant r1 lists review id v9 while no record for v9
exists: the inconsistent state the review page read can encounter. -/
def inconsistentStore : Store :=
  { freshStore with reviewList := fun k => if k = "r1" then ["v9"] else [] }

/-- zAdd writes the given score for the given member: reading it back yields
exactly that score. -/
theorem zScore_zAdd_self (l : List (String × ℚ)) (m : String) (v : ℚ) :
    zScore (zAdd l m v) m = some v := by
  induction l with
  | nil => simp [zAdd, zScore]
  | cons e t ih =>
    by_cases h : e.1 = m <;> simp [zAdd, zScore, h, ih]

/-- Field-level description of a successful review addition: the restaurant
record gets the new sum and the new average, the review id is prepended to the
list, the ranking score becomes the new average, and the review record stores
the path restaurant id as back-reference. -/
theorem addReview_fields (s : Store) (rid revId : String) (d : ReviewInput) (ts : Int)
    (r : RestRecord) (hres : s.restaurants rid = some r) :
    (addReview s rid revId d ts).1.restaurants rid =
      some { r with totalReviews := r.totalReviews + d.rating,
                    averageRating := newAverage s rid revId r d } ∧
    (addReview s rid revId d ts).1.reviewList rid = revId :: s.reviewList rid ∧
    zScore (addReview s rid revId d ts).1.ranking rid = some (newAverage s rid revId r d) ∧
    (addReview s rid revId d ts).1.reviewDetails revId =
      some { id := revId, rating := d.rating, body := d.body,
             timestamp := ts, restaurantId := rid } := by
  simp [addReview, hres, zScore_zAdd_self]

/-- C7: on the add-review path the divisor of the average computation is the
review-list length read back from the push, which counts the just-pushed id
and is therefore always positive — the division can never be by zero. -/
theorem push_count_positive (s : Store) (rid revId : String) :
    0 < reviewCountAfterPush s rid revId :=
  Nat.succ_pos _

/-- C2: a creation request whose name|location signature the duplicate
detector already contains is rejected as a duplicate (the Conflict failure)
and the store is returned exactly as it was: no record, ranking entry,
cuisine-index write or detector entry is added. -/
theorem duplicate_create_rejected (s : Store) (name location : String)
    (tags : List String) (id : String)
    (h : signature name location ∈ s.bloom) :
    createRestaurant s name location tags id = (s, CreateOutcome.conflict) := by
  simp [createRestaurant, h]

/-- Witness for duplicate_create_rejected: the Pizza Palace resubmission
against the store whose detector already holds its signature. -/
theorem duplicate_create_rejected_witness :
    createRestaurant dupStore "Pizza Palace" "NY" ["Italian"] "idX" =
      (dupStore, CreateOutcome.conflict) :=
  duplicate_create_rejected dupStore "Pizza Palace" "NY" ["Italian"] "idX" (by decide)

/-- C4: with the restaurant present (the middleware precondition), a
delete-review request whose target record exists but carries a different
back-reference yields the Integrity-Mismatch error with the store unchanged,
and a request whose target record is absent yields the Not-Found error with
the store unchanged. -/
theorem delete_review_error_no_change (s : Store) (rid revId : String)
    (hres : (s.restaurants rid).isSome) :
    (∀ rec, s.reviewDetails revId = some rec → rec.restaurantId ≠ rid →
      deleteReview s rid revId = (s, DeleteOutcome.integrityMismatch)) ∧
    (s.reviewDetails revId = none → deleteReview s rid revId = (s, DeleteOutcome.reviewNotFound)) := by
  obtain ⟨r, hr⟩ := Option.isSome_iff_exists.mp hres
  constructor
  · intro rec hrec hne
    simp [deleteReview, hr, hrec, hne]
  · intro hnone
    simp [deleteReview, hr, hnone]

/-- Witness for delete_review_error_no_change: deleting the r2-owned review v2
through the r1 path is an integrity mismatch, deleting an id with no record is
a Not-Found, and both leave the store exactly as it was. -/
theorem delete_review_error_no_change_witness :
    deleteReview mmStore "r1" "v2" = (mmStore, DeleteOutcome.integrityMismatch) ∧
    deleteReview mmStore "r1" "nope" = (mmStore, DeleteOutcome.reviewNotFound) :=
  ⟨(delete_review_error_no_change mmStore "r1" "v2" (by decide)).1 recV2 (by decide) (by decide),
   (delete_review_error_no_change mmStore "r1" "nope" (by decide)).2 (by decide)⟩

/-- C3: a successful review deletion (restaurant present, record present, the
back-reference matching the path, the id actually in the list) removes exactly
one occurrence of the id from the ordered list, deletes the review record, and
leaves the restaurant record — its rating-sum accumulator and averageRating —
and the ranking score untouched. -/
theorem delete_review_success_frame (s : Store) (rid revId : String)
    (rec : ReviewRecord)
    (hrest : (s.restaurants rid).isSome)
    (hrec : s.reviewDetails revId = some rec)
    (hown : rec.restaurantId = rid)
    (hmem : revId ∈ s.reviewList rid) :
    (deleteReview s rid revId).2 = DeleteOutcome.ok ∧
    (deleteReview s rid revId).1.reviewList rid = (s.reviewList rid).erase revId ∧
    ((deleteReview s rid revId).1.reviewList rid).count revId + 1 = (s.reviewList rid).count revId ∧
    (deleteReview s rid revId).1.reviewDetails revId = none ∧
    (deleteReview s rid revId).1.restaurants rid = s.restaurants rid ∧
    zScore (deleteReview s rid revId).1.ranking rid = zScore s.ranking rid := by
  obtain ⟨r, hr⟩ := Option.isSome_iff_exists.mp hrest
  have h2 : 0 < (s.reviewList rid).count revId := List.count_pos_iff.mpr hmem
  simp [deleteReview, hr, hrec, hown]
  omega

/-- Witness for delete_review_success_frame: deleting review v1 of restaurant
r1 in the one-review store succeeds, empties the list, drops the record, and
keeps the record fields and ranking score of r1. -/
theorem delete_review_success_frame_witness :
    (deleteReview delStore "r1" "v1").2 = DeleteOutcome.ok ∧
    (deleteReview delStore "r1" "v1").1.reviewList "r1" = (delStore.reviewList "r1").erase "v1" ∧
    ((deleteReview delStore "r1" "v1").1.reviewList "r1").count "v1" + 1 =
      (delStore.reviewList "r1").count "v1" ∧
    (deleteReview delStore "r1" "v1").1.reviewDetails "v1" = none ∧
    (deleteReview delStore "r1" "v1").1.restaurants "r1" = delStore.restaurants "r1" ∧
    zScore (deleteReview delStore "r1" "v1").1.ranking "r1" = zScore delStore.ranking "r1" :=
  delete_review_success_frame delStore "r1" "v1" recV1 (by decide) (by decide) (by decide) (by decide)

/-- C10: a review added through the submission path stores the path restaurant
id as its back-reference, so deleting it immediately through the same
restaurant path passes the existence and integrity checks and succeeds. -/
theorem review_backref_integrity (s : Store) (rid revId : String) (d : ReviewInput)
    (ts : Int) (r : RestRecord) (hres : s.restaurants rid = some r) :
    backrefOf (addReview s rid revId d ts).1 revId = some rid ∧
    (deleteReview (addReview s rid revId d ts).1 rid revId).2 = DeleteOutcome.ok := by
  obtain ⟨h1, h2, h3, h4⟩ := addReview_fields s rid revId d ts r hres
  refine ⟨?_, ?_⟩
  · simp [backrefOf, h4]
  · simp [deleteReview, h1, h4]

/-- Witness for review_backref_integrity: submitting review v9 to the fresh
restaurant r1 stores back-reference r1 and the immediate delete through r1
succeeds. -/
theorem review_backref_integrity_witness :
    backrefOf (addReview freshStore "r1" "v9" { rating := 5, body := "x" } 0).1 "v9" = some "r1" ∧
    (deleteReview (addReview freshStore "r1" "v9" { rating := 5, body := "x" } 0).1 "r1" "v9").2 =
      DeleteOutcome.ok :=
  review_backref_integrity freshStore "r1" "v9" { rating := 5, body := "x" } 0 freshRec (by decide)

/-- C8 evidence: in the store whose restaurant r1 lists review id v9 without a
record for it, the review page still carries an entry for v9 — the unresolved
id is not skipped, because reading an absent record resolves to an empty hash
instead of failing, so the skip branch never fires. -/
theorem list_reviews_keeps_unresolved :
    listReviews inconsistentStore "r1" 1 10 = [none] := by decide

/-- Running-state description of a sequence of review submissions: starting
from any restaurant record, the fold leaves the record with the accumulated
sum and the average of the last step, and the ranking score equal to that
average. -/
theorem applyReviews_avg (L : List (String × ReviewInput)) :
    ∀ (s : Store) (rid : String) (r : RestRecord), s.restaurants rid = some r → L ≠ [] →
      (applyReviews s rid L).restaurants rid =
        some { r with
          totalReviews := r.totalReviews + (L.map (fun p => p.2.rating)).sum,
          averageRating := round1 (((r.totalReviews : ℚ) + (((L.map (fun p => p.2.rating)).sum : Int) : ℚ)) /
            (((s.reviewList rid).length : ℚ) + (L.length : ℚ))) } ∧
      zScore (applyReviews s rid L).ranking rid =
        some (round1 (((r.totalReviews : ℚ) + (((L.map (fun p => p.2.rating)).sum : Int) : ℚ)) /
            (((s.reviewList rid).length : ℚ) + (L.length : ℚ)))) := by
  induction L with
  | nil => intro s rid r _ hne; exact absurd rfl hne
  | cons p t ih =>
    intro s rid r hres _
    obtain ⟨h1, h2, h3, _⟩ := addReview_fields s rid p.1 p.2 0 r hres
    have hstep : applyReviews s rid (p :: t) = applyReviews (addReview s rid p.1 p.2 0).1 rid t := rfl
    by_cases ht : t = []
    · subst ht
      have havg : newAverage s rid p.1 r p.2 =
          round1 (((r.totalReviews : ℚ) + ((([p].map (fun q => q.2.rating)).sum : Int) : ℚ)) /
            (((s.reviewList rid).length : ℚ) + (([p] : List (String × ReviewInput)).length : ℚ))) := by
        simp only [newAverage, reviewCountAfterPush, List.map_cons, List.map_nil,
          List.sum_cons, List.sum_nil, List.length_cons, List.length_nil, List.length_singleton]
        congr 1
        push_cast
        ring
      refine ⟨?_, ?_⟩
      · rw [hstep]
        show (addReview s rid p.1 p.2 0).1.restaurants rid = _
        rw [h1, havg]
        simp
      · rw [hstep]
        show zScore (addReview s rid p.1 p.2 0).1.ranking rid = _
        rw [h3, havg]
    · obtain ⟨g1, g2⟩ := ih (addReview s rid p.1 p.2 0).1 rid _ h1 ht
      have hlen : ((addReview s rid p.1 p.2 0).1.reviewList rid).length =
          (s.reviewList rid).length + 1 := by rw [h2]; rfl
      have hnum : ((r.totalReviews + p.2.rating : Int) : ℚ) +
            (((t.map (fun q => q.2.rating)).sum : Int) : ℚ) =
          (r.totalReviews : ℚ) + ((((p :: t).map (fun q => q.2.rating)).sum : Int) : ℚ) := by
        simp only [List.map_cons, List.sum_cons]
        push_cast
        ring
      have hden : (((addReview s rid p.1 p.2 0).1.reviewList rid).length : ℚ) + (t.length : ℚ) =
          ((s.reviewList rid).length : ℚ) + (((p :: t).length : ℚ)) := by
        rw [hlen]
        simp only [List.length_cons]
        push_cast
        ring
      have hsum2 : (r.totalReviews + p.2.rating) + (t.map (fun q => q.2.rating)).sum =
          r.totalReviews + ((p :: t).map (fun q => q.2.rating)).sum := by
        simp only [List.map_cons, List.sum_cons]
        ring
      refine ⟨?_, ?_⟩
      · rw [hstep, g1]
        congr 1
        simp only [RestRecord.mk.injEq]
        refine ⟨trivial, trivial, trivial, ?_, ?_⟩
        · rw [hnum, hden]
        · exact hsum2
      · rw [hstep, g2, hnum, hden]

/-- C1: starting from a restaurant with a zero sum accumulator and an empty
review list, after any nonempty sequence of review submissions the observed
averageRating is the sum of the submitted ratings divided by their number
rounded to one decimal, and the ranking structure stores the same value as the
score of the restaurant. -/
theorem review_average_correct (s : Store) (rid : String) (r : RestRecord)
    (L : List (String × ReviewInput))
    (hres : s.restaurants rid = some r) (hsum : r.totalReviews = 0)
    (hlist : s.reviewList rid = []) (hne : L ≠ []) :
    avgOf (applyReviews s rid L) rid =
      round1 ((((L.map (fun p => p.2.rating)).sum : Int) : ℚ) / (L.length : ℚ)) ∧
    zScore (applyReviews s rid L).ranking rid =
      some (round1 ((((L.map (fun p => p.2.rating)).sum : Int) : ℚ) / (L.length : ℚ))) := by
  obtain ⟨h1, h2⟩ := applyReviews_avg L s rid r hres hne
  constructor
  · rw [avgOf, h1]
    simp [hsum, hlist]
  · rw [h2]
    simp [hsum, hlist]

/-- Witness for review_average_correct: the spec scenario — ratings 5 then 3
on a fresh restaurant give averageRating 4.0 and ranking score 4.0. -/
theorem review_average_correct_witness :
    avgOf (applyReviews freshStore "r1" demoReviews) "r1" = 4 ∧
    zScore (applyReviews freshStore "r1" demoReviews).ranking "r1" = some 4 := by
  obtain ⟨h1, h2⟩ := review_average_correct freshStore "r1" freshRec demoReviews
    (by decide) (by decide) (by decide) (by decide)
  refine ⟨?_, ?_⟩
  · rw [h1]
    norm_num [demoReviews, round1]
  · rw [h2]
    norm_num [demoReviews, round1]

/-- Transport of the symmetry invariant along an operation that leaves both
cuisine-index structures untouched. -/
theorem cuisineSym_of_fields_eq (s s2 : Store)
    (hrc : s2.restaurantCuisines = s.restaurantCuisines)
    (hcm : s2.cuisineMembers = s.cuisineMembers)
    (hs : CuisineSym s) : CuisineSym s2 := by
  intro rid tag
  rw [hrc, hcm]
  exact hs rid tag

/-- C5: the bidirectional cuisine-index symmetry holds in the empty store and
is preserved by every operation of the API; creation writes the tag into the
global set, the id into the per-tag set and the tag into the per-restaurant
set together, and no other operation touches either index. -/
theorem cuisine_symmetry :
    CuisineSym emptyStore ∧
    ∀ (s : Store) (op : Op), CuisineSym s → CuisineSym (applyOp s op) := by
  constructor
  · intro rid tag
    simp [emptyStore]
  · intro s op hs
    cases op with
    | create name location tags id =>
      by_cases hb : signature name location ∈ s.bloom
      · intro rid tag
        simp only [applyOp, createRestaurant, if_pos hb]
        exact hs rid tag
      · intro rid tag
        simp only [applyOp, createRestaurant, if_neg hb]
        by_cases hk : rid = id <;> by_cases ht : tag ∈ tags <;>
          simp [hk, ht, List.mem_append, hs rid tag, hs id tag]
    | review rid2 revId d ts =>
      cases h : s.restaurants rid2 with
      | none =>
        refine cuisineSym_of_fields_eq s _ ?_ ?_ hs <;> simp [applyOp, addReview, h]
      | some r =>
        refine cuisineSym_of_fields_eq s _ ?_ ?_ hs <;> simp [applyOp, addReview, h]
    | removeReview rid2 revId =>
      cases h : s.restaurants rid2 with
      | none =>
        refine cuisineSym_of_fields_eq s _ ?_ ?_ hs <;> simp [applyOp, deleteReview, h]
      | some r =>
        cases h2 : s.reviewDetails revId with
        | none =>
          refine cuisineSym_of_fields_eq s _ ?_ ?_ hs <;> simp [applyOp, deleteReview, h, h2]
        | some rec =>
          by_cases h3 : rec.restaurantId = rid2 <;>
            ( refine cuisineSym_of_fields_eq s _ ?_ ?_ hs <;>
                simp [applyOp, deleteReview, h, h2, h3] )
    | view rid2 =>
      cases h : s.restaurants rid2 with
      | none =>
        refine cuisineSym_of_fields_eq s _ ?_ ?_ hs <;> simp [incrementView, applyOp, h]
      | some r =>
        refine cuisineSym_of_fields_eq s _ ?_ ?_ hs <;> simp [incrementView, applyOp, h]

/-- Witness for cuisine_symmetry: the invariant after creating the Pizza
Palace restaurant with two cuisine tags in the empty store, obtained by
preservation from the empty-store case. -/
theorem cuisine_symmetry_witness :
    CuisineSym (applyOp emptyStore (Op.create "Pizza Palace" "NY" ["Italian", "Pizza"] "r1")) :=
  cuisine_symmetry.2 emptyStore (Op.create "Pizza Palace" "NY" ["Italian", "Pizza"] "r1")
    cuisine_symmetry.1

/-- The window returned by topByRating is sorted by the descending rating
order: it is a take of a drop of the insertion-sorted ranking entries. -/
theorem topByRating_sorted (s : Store) (start limit : Nat) :
    (topByRating s start limit).Sorted ratingRel := by
  have h := List.sorted_insertionSort ratingRel s.ranking
  exact h.sublist
    ((List.take_sublist _ _).trans (List.drop_sublist _ _))

/-- C6: in any window of the top-by-rating listing that covers two restaurants
whose ranking scores are their stored averageRating values, the one with the
strictly greater averageRating appears strictly earlier: the listing is
ordered descending by score. -/
theorem ranking_order (s : Store) (start limit i j : Nat) (A B : String)
    (sA sB : ℚ) (ra rb : RestRecord)
    (hi : i < (topByRating s start limit).length)
    (hj : j < (topByRating s start limit).length)
    (hA : (topByRating s start limit).get ⟨i, hi⟩ = (A, sA))
    (hB : (topByRating s start limit).get ⟨j, hj⟩ = (B, sB))
    (hra : s.restaurants A = some ra) (hrb : s.restaurants B = some rb)
    (hsa : sA = ra.averageRating) (hsb : sB = rb.averageRating)
    (hgt : rb.averageRating < ra.averageRating) : i < j := by
  by_contra hij
  push_neg at hij
  rcases Nat.lt_or_ge j i with hlt | hge
  · have hrel := (topByRating_sorted s start limit).rel_get_of_lt
      (show (⟨j, hj⟩ : Fin (topByRating s start limit).length) < ⟨i, hi⟩ from hlt)
    rw [hA, hB] at hrel
    rcases hrel with h | ⟨h, _⟩
    · rw [hsa, hsb] at h
      exact absurd h (not_lt.mpr (le_of_lt hgt))
    · rw [hsa, hsb] at h
      exact absurd h (ne_of_lt hgt)
  · have hji : j = i := le_antisymm hij hge
    subst hji
    rw [hA] at hB
    have : sA = sB := by
      have := congrArg Prod.snd hB
      simpa using this
    rw [hsa, hsb] at this
    exact absurd this (ne_of_gt hgt)

/-- Witness for ranking_order: in the two-restaurant demo store the higher
rated restaurant a occupies index 0 and the lower rated b index 1 of the first
page, and the theorem places a strictly before b. -/
theorem ranking_order_witness : (0 : Nat) < 1 ∧ topByRating demoStore 0 10 = [("a", 4), ("b", 2)] :=
  ⟨ranking_order demoStore 0 10 0 1 "a" "b" 4 2 recA recB
      (by decide) (by decide) (by decide) (by decide) (by decide) (by decide)
      (by decide) (by decide) (by decide),
   by decide⟩

/-- C9: in the paginated list-all response the reported total is the length of
the page actually returned — never the store-wide count: it never exceeds the
limit, and on any page past the end of the ranking data it is zero. -/
theorem listAll_total_is_page_length (s : Store) (page limit : Nat) :
    (listAll s page limit).2.total = (listAll s page limit).1.length ∧
    (listAll s page limit).2.total ≤ limit ∧
    (s.ranking.length ≤ (page - 1) * limit → (listAll s page limit).2.total = 0) := by
  refine ⟨rfl, ?_, ?_⟩
  · simp only [listAll, topByRating, List.length_map, List.length_take]
    exact min_le_left _ _
  · intro h
    simp only [listAll, topByRating, List.length_map, List.length_take,
      List.length_drop, List.length_insertionSort]
    omega

/-- Witness for listAll_total_is_page_length: with two ranked restaurants and
limit 1, page 1 reports total 1 (the page length, not the store count) and
page 3 reports total 0. -/
theorem listAll_total_is_page_length_witness :
    (listAll demoStore 1 1).2.total = (listAll demoStore 1 1).1.length ∧
    (listAll demoStore 1 1).2.total ≤ 1 ∧
    (listAll demoStore 3 1).2.total = 0 :=
  ⟨(listAll_total_is_page_length demoStore 1 1).1,
   (listAll_total_is_page_length demoStore 1 1).2.1,
   (listAll_total_is_page_length demoStore 3 1).2.2 (by decide)⟩
